import Mathlib

/-!
Verification of the rankedcode match server against its specification.

The definitions below are a shallow embedding of the JavaScript source:

* `jsonParse` / `stringifyF` model the `JSON.parse` / `JSON.stringify`
  builtins used by the output matcher (numbers are modelled as exact
  decimal fractions without exponent notation; JS float artifacts are
  idealized away).
* `normalizeOutput`, `outputMatches`, `passesReturnLengthHeuristic` embed
  the output matcher of `src/unnamed/part_001`.
* `parseTestCases` embeds the test-case deriver.
* `expectedScore` / `computeEloUpdate` embed `src/server/elo.js` over ℝ.
* `MatchState` with `joinHandler` / `submitHandler` / `submitTxn` /
  `forfeitHandler` embeds the match-resolution endpoints, with database
  reads/writes represented as explicit state passing and the external
  code-execution results passed in as parameters.
-/

/-! ## JSON values, parsing and canonical serialization -/

/-- A JSON value as produced by `JSON.parse`.  Numbers are kept as a sign,
an integer part, and the literal fraction digits (JS number idealized as an
exact decimal; exponent notation is not modelled). -/
inductive Json where
  | null : Json
  | bool : Bool → Json
  | num : Bool → Nat → List Char → Json
  | str : String → Json
  | arr : List Json → Json
  | obj : List (String × Json) → Json

/-- Skip JSON whitespace. -/
def skipWs : List Char → List Char
  | [] => []
  | c :: cs => if c = ' ' ∨ c = '\t' ∨ c = '\n' ∨ c = '\r' then skipWs cs else c :: cs

def digitsToNat (ds : List Char) : Nat :=
  ds.foldl (fun n c => n * 10 + (c.toNat - 48)) 0

def hexVal (c : Char) : Option Nat :=
  if '0' ≤ c ∧ c ≤ '9' then some (c.toNat - 48)
  else if 'a' ≤ c ∧ c ≤ 'f' then some (c.toNat - 87)
  else if 'A' ≤ c ∧ c ≤ 'F' then some (c.toNat - 55)
  else none

/-- Parse the body of a JSON string (the opening quote already consumed). -/
def parseStringBody : List Char → Option (List Char × List Char)
  | [] => none
  | '"' :: rest => some ([], rest)
  | '\\' :: 'u' :: h1 :: h2 :: h3 :: h4 :: rest => do
      let v1 ← hexVal h1
      let v2 ← hexVal h2
      let v3 ← hexVal h3
      let v4 ← hexVal h4
      let n := ((v1 * 16 + v2) * 16 + v3) * 16 + v4
      let (s, r) ← parseStringBody rest
      some ((Char.ofNat n) :: s, r)
  | '\\' :: e :: rest => do
      let c ← match e with
        | '"' => some '"'
        | '\\' => some '\\'
        | '/' => some '/'
        | 'b' => some (Char.ofNat 8)
        | 'f' => some (Char.ofNat 12)
        | 'n' => some '\n'
        | 'r' => some '\r'
        | 't' => some '\t'
        | _ => none
      let (s, r) ← parseStringBody rest
      some (c :: s, r)
  | c :: rest =>
      if c.toNat < 32 then none
      else do
        let (s, r) ← parseStringBody rest
        some (c :: s, r)

/-- Parse a JSON number (strict JSON grammar, without exponents). -/
def parseNum (cs : List Char) : Option (Json × List Char) :=
  let (neg, cs1) := match cs with
    | '-' :: r => (true, r)
    | _ => (false, cs)
  let intDigits := cs1.takeWhile Char.isDigit
  let cs2 := cs1.drop intDigits.length
  if intDigits = [] then none
  else if 1 < intDigits.length ∧ intDigits.headD '0' = '0' then none
  else match cs2 with
    | '.' :: cs3 =>
      let fr := cs3.takeWhile Char.isDigit
      if fr = [] then none
      else some (Json.num neg (digitsToNat intDigits) fr, cs3.drop fr.length)
    | _ => some (Json.num neg (digitsToNat intDigits) [], cs2)

/-- After one array element: either `, value …` or `]`.  The value parser
is passed in as `pv`. -/
def parseElemsRest (pv : List Char → Option (Json × List Char)) :
    Nat → List Char → Option (List Json × List Char)
  | 0, _ => none
  | fuel + 1, cs =>
    match skipWs cs with
    | ',' :: r1 => do
        let (v, r2) ← pv r1
        let (vs, r3) ← parseElemsRest pv fuel r2
        some (v :: vs, r3)
    | ']' :: r1 => some ([], r1)
    | _ => none

/-- After one object member: either `, "key": value …` or `}`. -/
def parseMembersRest (pv : List Char → Option (Json × List Char)) :
    Nat → List Char → Option (List (String × Json) × List Char)
  | 0, _ => none
  | fuel + 1, cs =>
    match skipWs cs with
    | ',' :: r1 =>
        (match skipWs r1 with
         | '"' :: r2 => do
            let (k, r3) ← parseStringBody r2
            (match skipWs r3 with
             | ':' :: r4 => do
                let (v, r5) ← pv r4
                let (ms, r6) ← parseMembersRest pv fuel r5
                some ((String.mk k, v) :: ms, r6)
             | _ => none)
         | _ => none)
    | '}' :: r1 => some ([], r1)
    | _ => none

/-- Parse one JSON value; fuel-structural so the kernel can evaluate it. -/
def parseVal : Nat → List Char → Option (Json × List Char)
  | 0, _ => none
  | fuel + 1, cs0 =>
    let cs := skipWs cs0
    match cs with
    | [] => none
    | 'n' :: 'u' :: 'l' :: 'l' :: rest => some (Json.null, rest)
    | 't' :: 'r' :: 'u' :: 'e' :: rest => some (Json.bool true, rest)
    | 'f' :: 'a' :: 'l' :: 's' :: 'e' :: rest => some (Json.bool false, rest)
    | '"' :: rest => do
        let (s, r) ← parseStringBody rest
        some (Json.str (String.mk s), r)
    | '[' :: rest =>
        let rest1 := skipWs rest
        (match rest1 with
         | ']' :: r2 => some (Json.arr [], r2)
         | _ => do
            let (v, r2) ← parseVal fuel rest1
            let (vs, r3) ← parseElemsRest (parseVal fuel) fuel r2
            some (Json.arr (v :: vs), r3))
    | '{' :: rest =>
        let rest1 := skipWs rest
        (match rest1 with
         | '}' :: r2 => some (Json.obj [], r2)
         | '"' :: r2 => do
            let (k, r3) ← parseStringBody r2
            (match skipWs r3 with
             | ':' :: r4 => do
                let (v, r5) ← parseVal fuel r4
                let (ms, r6) ← parseMembersRest (parseVal fuel) fuel r5
                some (Json.obj ((String.mk k, v) :: ms), r6)
             | _ => none)
         | _ => none)
    | _ => parseNum cs

/-- Model of `JSON.parse`: `none` models a thrown `SyntaxError`. -/
def jsonParse (s : String) : Option Json :=
  let cs := s.toList
  match parseVal (cs.length + 1) cs with
  | some (v, rest) => if skipWs rest = [] then some v else none
  | none => none

def dropTrailingZeros (fr : List Char) : List Char :=
  (fr.reverse.dropWhile (fun c => c = '0')).reverse

/-- Canonical serialization of a JSON number, as `JSON.stringify` prints it
(trailing zero fraction digits dropped, `-0` printed as `0`). -/
def numToString (neg : Bool) (ip : Nat) (fr : List Char) : String :=
  let fr' := dropTrailingZeros fr
  if ip = 0 ∧ fr' = [] then "0"
  else (if neg then "-" else "") ++ toString ip ++
    (if fr' = [] then "" else "." ++ String.mk fr')

def hexDigit (n : Nat) : Char :=
  if n < 10 then Char.ofNat (48 + n) else Char.ofNat (87 + n)

/-- Escape one character as `JSON.stringify` does inside string literals. -/
def escapeChar (c : Char) : String :=
  if c = '"' then "\\\""
  else if c = '\\' then "\\\\"
  else if c = '\n' then "\\n"
  else if c = '\r' then "\\r"
  else if c = '\t' then "\\t"
  else if c = Char.ofNat 8 then "\\b"
  else if c = Char.ofNat 12 then "\\f"
  else if c.toNat < 32 then "\\u00" ++ String.mk [hexDigit (c.toNat / 16), hexDigit (c.toNat % 16)]
  else String.mk [c]

def quoteJson (s : String) : String :=
  "\"" ++ String.join (s.toList.map escapeChar) ++ "\""

/-- Model of `JSON.stringify`, fuel-structural (the fuel bounds the nesting
depth; it is always instantiated with a bound that exceeds the depth of any
value `jsonParse` can produce from the given input). -/
def stringifyF : Nat → Json → String
  | _, Json.null => "null"
  | _, Json.bool b => if b then "true" else "false"
  | _, Json.num neg ip fr => numToString neg ip fr
  | _, Json.str s => quoteJson s
  | 0, Json.arr _ => ""
  | fuel + 1, Json.arr xs =>
      "[" ++ String.intercalate "," (xs.map (fun x => stringifyF fuel x)) ++ "]"
  | 0, Json.obj _ => ""
  | fuel + 1, Json.obj kvs =>
      "\x7b" ++ String.intercalate ","
        (kvs.map (fun kv => quoteJson kv.1 ++ ":" ++ stringifyF fuel kv.2)) ++ "\x7d"

/-! ## Output matcher (`normalizeOutput`, `outputMatches`,
`passesReturnLengthHeuristic` in `src/unnamed/part_001`) -/

/-- Model of the JS `String.prototype.trim` (whitespace here is the ASCII
whitespace that occurs in the data this server handles). -/
def jsTrim (s : String) : String :=
  String.mk (((s.toList.dropWhile Char.isWhitespace).reverse.dropWhile Char.isWhitespace).reverse)

/-- Split a character list at newline characters. -/
def splitNlAux : List Char → List Char → List (List Char)
  | [], cur => [cur.reverse]
  | '\n' :: rest, cur => cur.reverse :: splitNlAux rest []
  | c :: rest, cur => splitNlAux rest (c :: cur)

/-- Model of `s.split(/\r?\n/)` composed with per-line trimming: the `\r`
is removed by the trim of each line. -/
def splitOnNewline (s : String) : List String :=
  (splitNlAux s.toList []).map String.mk

/-- Model of `normalizeOutput`: trim, and if the string parses as JSON re-serialize
it canonically; otherwise return the trimmed string. -/
def normalizeOutput (s : String) : String :=
  let t := jsTrim s
  match jsonParse t with
  | some v => stringifyF (t.length + 1) v
  | none => t

/-- The JS regular expression test `/^\d+$/.test s`. -/
def isDigitsOnly (s : String) : Bool :=
  0 < s.length ∧ s.toList.all Char.isDigit

/-- Value of `Number s` for a string of decimal digits. -/
def digitsVal (s : String) : Nat := digitsToNat s.toList

/-- Model of `outputMatches(actual, expected)`: canonical equality, with the
documented length-heuristic exception (a bare integer `actual` matches an
array `expected` of exactly that length). -/
def outputMatches (actual expected : String) : Bool :=
  if normalizeOutput actual = normalizeOutput expected then true
  else
    let actualStr := jsTrim actual
    match jsonParse (jsTrim expected) with
    | some (Json.arr xs) =>
        if isDigitsOnly actualStr ∧ digitsVal actualStr = xs.length then true else false
    | _ => false

/-- JS strict equality `x !== val` negated, on JSON-parsed values: primitives
compare by value, arrays/objects are distinct fresh references and never
strictly equal. `-0` equals `0`, and `1.50` equals `1.5`. -/
def numCanon (neg : Bool) (ip : Nat) (fr : List Char) : Bool × Nat × List Char :=
  let fr' := dropTrailingZeros fr
  if ip = 0 ∧ fr' = [] then (false, 0, []) else (neg, ip, fr')

def jsStrictEq : Json → Json → Bool
  | Json.null, Json.null => true
  | Json.bool a, Json.bool b => a = b
  | Json.str a, Json.str b => a = b
  | Json.num n1 i1 f1, Json.num n2 i2 f2 => numCanon n1 i1 f1 = numCanon n2 i2 f2
  | _, _ => false

/-- Trim, split on newlines, trim each line and drop empties — the line
splitting used by both the deriver and the return-length heuristic
(`s.trim().split(/\r?\n/).map(trim).filter(Boolean)`). -/
def toLines (s : String) : List String :=
  ((splitOnNewline s).map jsTrim).filter (fun l => l ≠ "")

/-- Model of `passesReturnLengthHeuristic(actual, expected, stdin)`: for in-place
"return new length" problems, recompute `k` from the stdin lines and accept
a bare-integer `actual` equal to it.  (`expected` is unused in the source.) -/
def passesReturnLengthHeuristic (actual _expected stdin : String) : Bool :=
  let actualStr := jsTrim actual
  if ¬ isDigitsOnly actualStr then false
  else
    let lines := toLines stdin
    if lines.length < 2 then false
    else
      match jsonParse (lines.headD "") with
      | some (Json.arr elems) =>
          let lastLine := lines.getLastD ""
          let v : Json := (jsonParse lastLine).getD (Json.str lastLine)
          let k := (elems.filter (fun x => ¬ jsStrictEq x v)).length
          digitsVal actualStr = k
      | _ => false

/-! ## Test-case deriver (`parseTestCases` in `src/unnamed/part_001`) -/

structure TestCase where
  stdin : String
  expected : String
deriving DecidableEq, Repr

/-- Model of `lines.slice(i, i+numParams).join("\n")`. -/
def joinInput (lines : List String) (numParams : Nat) : String :=
  String.intercalate "\n" (lines.take numParams)

/-- The main grouping loop of `parseTestCases`: blocks of `numParams` input
lines followed by one expected-output line; trailing lines that do not fill
a whole block are dropped.  Fuel-structural (fuel = number of lines). -/
def chunkAux (numParams : Nat) : Nat → List String → List TestCase
  | 0, _ => []
  | fuel + 1, lines =>
    if numParams + 1 ≤ lines.length then
      { stdin := joinInput lines numParams,
        expected := (lines.drop numParams).headD "" } ::
        chunkAux numParams fuel (lines.drop (numParams + 1))
    else []

def chunkCases (lines : List String) (numParams : Nat) : List TestCase :=
  chunkAux numParams lines.length lines

/-- The fallback re-grouping loop: try smaller parameter counts
`tryParams = numParams-1, …, 2`, taking the first whose block size divides
the line count and yields at least two cases. -/
def retryLoop (lines : List String) : Nat → Option (List TestCase)
  | 0 => none
  | 1 => none
  | tryParams + 2 =>
    if lines.length % (tryParams + 2 + 1) = 0 ∧ 2 ≤ (chunkCases lines (tryParams + 2)).length then
      some (chunkCases lines (tryParams + 2))
    else retryLoop lines (tryParams + 1)

/-- The body of `parseTestCases` after line splitting.  Mirrors the source:
the unknown-N fallback, the N=1 regrouping quirk, the `2N` special case, the
main grouping loop with its no-oracle fallback, and the retry loop. -/
def parseTestCasesFromLines (lines : List String) (numParamsFromMeta : Option Int) : List TestCase :=
  if lines.length = 0 then []
  else
    match numParamsFromMeta with
    | none =>
        if 2 ≤ lines.length then
          [{ stdin := String.intercalate "\n" lines.dropLast, expected := lines.getLastD "" }]
        else [{ stdin := lines.headD "", expected := "" }]
    | some np =>
        if np < 0 then
          (if 2 ≤ lines.length then
            [{ stdin := String.intercalate "\n" lines.dropLast, expected := lines.getLastD "" }]
          else [{ stdin := lines.headD "", expected := "" }])
        else
          let numParams : Nat :=
            if np = 1 ∧ 3 ≤ lines.length ∧ lines.length % 3 = 0 then 2 else np.toNat
          let cases : List TestCase :=
            if lines.length = numParams * 2 then
              [{ stdin := joinInput lines numParams, expected := "" },
               { stdin := joinInput (lines.drop numParams) numParams, expected := "" }]
            else
              let chunks := chunkCases lines numParams
              if chunks.length = 0 ∧ numParams ≤ lines.length then
                [{ stdin := joinInput lines numParams, expected := "" }]
              else chunks
          if cases.length = 1 ∧ 3 ≤ numParams ∧ 4 ≤ lines.length then
            match retryLoop lines (numParams - 1) with
            | some tryCases => tryCases
            | none => cases
          else cases

/-- Model of `parseTestCases(exampleTestcases, numParamsFromMeta)`. -/
def parseTestCases (exampleTestcases : String) (numParamsFromMeta : Option Int) : List TestCase :=
  parseTestCasesFromLines (toLines exampleTestcases) numParamsFromMeta

/-! ## Rating update (`src/server/elo.js`), over ℝ (JS numbers idealized
as exact reals; `Math.round x` is `⌊x + 1/2⌋`). -/

/-- JS `Math.round`. -/
noncomputable def jsRound (x : ℝ) : ℤ := ⌊x + 1/2⌋

/-- Model of `expectedScore`: 1 / (1 + 10^((eloB - eloA)/400)). -/
noncomputable def expectedScore (eloA eloB : ℝ) : ℝ :=
  1 / (1 + (10 : ℝ) ^ ((eloB - eloA) / 400))

/-- Model of `clamp(value, min, max) = Math.min(max, Math.max(min, value))`. -/
noncomputable def clamp (value lo hi : ℝ) : ℝ := min hi (max lo value)

structure EloUpdate where
  newEloA : ℤ
  newEloB : ℤ
  k : ℤ

/-- Model of `computeEloUpdate` from `src/server/elo.js`: the base constant 32 is
scaled by the runtime ratio clamped to `[0.75, 1.5]` (when both runtimes
are present and positive), rounded to the integer `k`, and each new rating
is rounded independently.  `none` runtimes model JS `null`. -/
noncomputable def computeEloUpdate (eloA eloB scoreA scoreB : ℝ)
    (runtimeA runtimeB : Option ℝ) : EloUpdate :=
  let expectedA := expectedScore eloA eloB
  let expectedB := expectedScore eloB eloA
  let baseK : ℝ := 32
  let kMultiplier : ℝ :=
    match runtimeA, runtimeB with
    | some ra, some rb => if 0 < ra ∧ 0 < rb then clamp (rb / ra) 0.75 1.5 else 1
    | _, _ => 1
  let k : ℤ := jsRound (baseK * kMultiplier)
  { newEloA := jsRound (eloA + (k : ℝ) * (scoreA - expectedA)),
    newEloB := jsRound (eloB + (k : ℝ) * (scoreB - expectedB)),
    k := k }

/-! ## Match resolver state model

The database rows touched by the match endpoints, as explicit state.
`users` is the `users` table restricted to elo, `players` the
`match_players` rows of the one match under consideration (in rowid
order — the order a `SELECT` without `ORDER BY` returns them),
`present` whether the `matches` row exists. -/

inductive MatchStatus where
  | waiting
  | active
  | complete
deriving DecidableEq, Repr

structure PlayerRow where
  userId : Nat
  eloBefore : Int
  eloAfter : Option Int
  runtimeMs : Option ℚ
  submittedAt : Option Int
  isWinner : Option Bool
deriving DecidableEq, Repr

structure MatchState where
  present : Bool
  status : MatchStatus
  ranked : Bool
  players : List PlayerRow
  users : List (Nat × Int)
deriving DecidableEq, Repr

/-- Row lookup `SELECT … FROM match_players WHERE match_id = ? AND user_id = ?`. -/
def findPlayer (ps : List PlayerRow) (uid : Nat) : Option PlayerRow :=
  ps.find? (fun p => p.userId = uid)

/-- Row update `UPDATE match_players SET … WHERE match_id = ? AND user_id = ?`. -/
def updatePlayer (ps : List PlayerRow) (uid : Nat) (f : PlayerRow → PlayerRow) :
    List PlayerRow :=
  ps.map (fun p => if p.userId = uid then f p else p)

/-- Row update `UPDATE users SET elo = ? WHERE id = ?`. -/
def setUserElo (us : List (Nat × Int)) (uid : Nat) (e : Int) : List (Nat × Int) :=
  us.map (fun u => if u.1 = uid then (u.1, e) else u)

def getUserElo (us : List (Nat × Int)) (uid : Nat) : Option Int :=
  (us.find? (fun u => u.1 = uid)).map (fun u => u.2)

/-- Sorting `ORDER BY user_id` (insertion sort; user ids are unique). -/
def insertByUid (p : PlayerRow) : List PlayerRow → List PlayerRow
  | [] => [p]
  | q :: qs => if p.userId ≤ q.userId then p :: q :: qs else q :: insertByUid p qs

def sortByUid : List PlayerRow → List PlayerRow
  | [] => []
  | p :: ps => insertByUid p (sortByUid ps)

/-- Model of `p.submitted_at ? new Date(p.submitted_at).getTime() : Infinity`. -/
def submittedKey (p : PlayerRow) : WithTop Int :=
  match p.submittedAt with
  | some t => (t : WithTop Int)
  | none => ⊤

/-- The winner rule of the submit finalize step (`src/unnamed/part_001`
lines 1246-1254): scores and winner from the two submission timestamps;
earlier timestamp wins, equal timestamps are a draw with score 0.5 each. -/
structure Outcome where
  scoreA : ℝ
  scoreB : ℝ
  winnerId : Option Nat

noncomputable def decideOutcome (a b : PlayerRow) : Outcome :=
  if submittedKey a < submittedKey b then { scoreA := 1, scoreB := 0, winnerId := some a.userId }
  else if submittedKey b < submittedKey a then { scoreA := 0, scoreB := 1, winnerId := some b.userId }
  else { scoreA := 0.5, scoreB := 0.5, winnerId := none }

inductive SubmitResp where
  | httpError (msg : String)
  | waiting
  | completeIdem (ranked : Bool) (isWinner : Option Bool) (eloDelta : Int)
  | completeNew (winnerId : Option Nat) (k : Int) (ranked : Bool)
      (isWinner : Option Bool) (eloDelta : Int)

/-- The finalize transaction of the submit endpoint (lines 1219-1279):
re-read status; if `complete`, roll back and return the stored outcome for
the caller; otherwise, with two players and both runtimes recorded, compute
the winner by earliest `submitted_at`, write `elo_after`/`is_winner` for
both rows, propagate elo to the users when ranked, and set the match
`complete`.  Otherwise report `waiting`. -/
noncomputable def submitTxn (s : MatchState) (uid : Nat) : MatchState × SubmitResp :=
  if s.status = MatchStatus.complete then
    let ps := sortByUid s.players
    let meRow := findPlayer ps uid
    let hasWinner := ps.any (fun p => p.isWinner = some true)
    let isWinner : Option Bool :=
      if hasWinner then
        some (match meRow with
          | some m => m.isWinner = some true
          | none => false)
      else none
    let eloDelta : Int :=
      match meRow with
      | some m => match m.eloAfter with
        | some ea => ea - m.eloBefore
        | none => 0
      | none => 0
    (s, SubmitResp.completeIdem s.ranked isWinner eloDelta)
  else
    let ps := sortByUid s.players
    if ps.length < 2 ∨ ps.any (fun p => p.runtimeMs = none) then (s, SubmitResp.waiting)
    else
      match ps with
      | a :: b :: _ =>
        let oc := decideOutcome a b
        let ranked := s.ranked
        let upd := computeEloUpdate (a.eloBefore : ℝ) (b.eloBefore : ℝ) oc.scoreA oc.scoreB
          (a.runtimeMs.map (fun q => (q : ℝ))) (b.runtimeMs.map (fun q => (q : ℝ)))
        let finalEloA : Int := if ranked then upd.newEloA else a.eloBefore
        let finalEloB : Int := if ranked then upd.newEloB else b.eloBefore
        let k : Int := if ranked then upd.k else 0
        let players1 := updatePlayer s.players a.userId
          (fun p => { p with eloAfter := some finalEloA,
                             isWinner := some (oc.winnerId = some a.userId) })
        let players2 := updatePlayer players1 b.userId
          (fun p => { p with eloAfter := some finalEloB,
                             isWinner := some (oc.winnerId = some b.userId) })
        let users1 :=
          if ranked then setUserElo (setUserElo s.users a.userId finalEloA) b.userId finalEloB
          else s.users
        let s' := { s with players := players2, users := users1,
                           status := MatchStatus.complete }
        let me := findPlayer ps uid
        let isWinner : Option Bool :=
          match oc.winnerId with
          | none => none
          | some w => some (match me with
            | some m => w = m.userId
            | none => false)
        let eloDelta : Int :=
          if ranked then
            match me with
            | some m => if m.userId = a.userId then finalEloA - a.eloBefore
                        else finalEloB - b.eloBefore
            | none => 0
          else 0
        (s', SubmitResp.completeNew oc.winnerId k ranked isWinner eloDelta)
      | _ => (s, SubmitResp.waiting)

/-! ## Submit validation (`runAllTestsForSubmit`) and the endpoints

Code execution is an external effect; each test case's `runCodeOnce` result
enters the model as an `ExecOutcome` (`failed` models a thrown error). -/

inductive ExecOutcome where
  | ok (stdout : String) (runTimeMs : Option ℚ)
  | failed
deriving DecidableEq, Repr

structure ValidationResult where
  allPassed : Bool
  failedCount : Nat
  total : Nat
  maxRunTimeMs : Option ℚ
deriving DecidableEq, Repr

/-- One iteration of the `runAllTestsForSubmit` loop: a case passes when it
has a non-empty expected value and `outputMatches` accepts it, or failing
that when the return-length heuristic accepts it (tried whenever actual or
expected is non-empty). -/
def casePassed (tc : TestCase) (out : ExecOutcome) : Bool :=
  match out with
  | ExecOutcome.failed => false
  | ExecOutcome.ok stdout _ =>
    let actual := jsTrim stdout
    let noExpected := jsTrim tc.expected = ""
    let passed := (¬ noExpected) ∧ outputMatches actual tc.expected
    if passed then true
    else if actual ≠ "" ∨ tc.expected ≠ "" then
      passesReturnLengthHeuristic actual tc.expected tc.stdin
    else false

def countFails : List TestCase → List ExecOutcome → Nat
  | [], _ => 0
  | tc :: tcs, [] => (if casePassed tc ExecOutcome.failed then 0 else 1) + countFails tcs []
  | tc :: tcs, o :: os => (if casePassed tc o then 0 else 1) + countFails tcs os

/-- The `maxRunTimeMs` accumulation (`Math.max` over the recorded run times,
starting from 0). -/
def maxRunTime : List TestCase → List ExecOutcome → ℚ
  | [], _ => 0
  | _ :: tcs, [] => maxRunTime tcs []
  | _ :: tcs, o :: os =>
    match o with
    | ExecOutcome.ok _ (some rt) => max (maxRunTime tcs os) rt
    | _ => maxRunTime tcs os

/-- Model of `runAllTestsForSubmit` given the derived test cases and the execution
outcomes: with no cases it reports one failure and total 0; otherwise it
counts failing cases and records the maximal runtime (`0` collapses to
`null` via `maxRunTimeMs || null`). -/
def runAllTestsModel (testCases : List TestCase) (outs : List ExecOutcome) :
    ValidationResult :=
  if testCases.length = 0 then
    { allPassed := false, failedCount := 1, total := 0, maxRunTimeMs := none }
  else
    let failedCount := countFails testCases outs
    let m := maxRunTime testCases outs
    { allPassed := failedCount = 0,
      failedCount := failedCount,
      total := testCases.length,
      maxRunTimeMs := if m = 0 then none else some m }

/-- The rejection message of the submit endpoint. -/
def rejectMsg (passed total : Nat) : String :=
  toString passed ++ "/" ++ toString total ++
    " test cases passed. Pass all tests before submitting."

/-- JS truthiness of an optional string field. -/
def isTruthyStr : Option String → Bool
  | some s => s ≠ ""
  | none => false

/-- The recorded `runtimeMs` must be present and positive (`!runtimeMs || runtimeMs <= 0`). -/
def runtimeOk : Option ℚ → Bool
  | none => false
  | some r => 0 < r

/-- The submit endpoint (lines 1162-1280): guards, optional validation run,
runtime recording, then the finalize transaction.  `testCases` are the
cases derived for the match's problem and `outs` the execution results. -/
noncomputable def submitHandler (s : MatchState) (uid : Nat)
    (code language : Option String) (hasProblemSlug : Bool)
    (clientRuntimeMs : Option ℚ) (testCases : List TestCase)
    (outs : List ExecOutcome) (now : Int) : MatchState × SubmitResp :=
  if ¬ s.present then (s, SubmitResp.httpError "Match not found")
  else if s.status = MatchStatus.complete then
    (s, SubmitResp.httpError "Match already complete")
  else if findPlayer s.players uid = none then
    (s, SubmitResp.httpError "Not part of this match")
  else
    let doValidate := isTruthyStr code ∧ isTruthyStr language ∧ hasProblemSlug
    let v := runAllTestsModel testCases outs
    if doValidate ∧ 0 < v.total ∧ v.allPassed = false then
      (s, SubmitResp.httpError (rejectMsg (v.total - v.failedCount) v.total))
    else
      let runtimeMs : Option ℚ :=
        if doValidate ∧ 0 < v.total ∧ v.maxRunTimeMs ≠ none then v.maxRunTimeMs
        else clientRuntimeMs
      if runtimeOk runtimeMs = false then
        (s, SubmitResp.httpError "Run or Test your code first to get a runtime, then Submit.")
      else
        let s1 := { s with players := (updatePlayer s.players uid
          (fun p => { p with runtimeMs := runtimeMs, submittedAt := some now })) }
        submitTxn s1 uid

inductive JoinResp where
  | httpError (msg : String)
  | ok
deriving DecidableEq, Repr

/-- The join endpoint (lines 1108-1142).  `uelo` is the joining user's
current elo as read from the users table. -/
def joinHandler (s : MatchState) (uid : Nat) (uelo : Int) : MatchState × JoinResp :=
  if ¬ s.present then (s, JoinResp.httpError "Match not found")
  else if s.status ≠ MatchStatus.waiting then (s, JoinResp.httpError "Match already started")
  else if (findPlayer s.players uid).isSome then (s, JoinResp.ok)
  else if 2 ≤ s.players.length then (s, JoinResp.httpError "Match full")
  else
    ({ s with
        players := s.players ++ [{ userId := uid, eloBefore := uelo, eloAfter := none,
                                   runtimeMs := none, submittedAt := none, isWinner := none }],
        status := MatchStatus.active },
     JoinResp.ok)

inductive ForfeitResp where
  | httpError (msg : String)
  | leftMatch
  | forfeited (winnerId : Nat) (ranked : Bool)
deriving DecidableEq, Repr

/-- The data the forfeit endpoint reads and computes before it opens its
transaction (lines 1287-1302): the forfeiter row, the unordered players
list (whose head is `players[0]`), the opponent, and the ranked flag. -/
structure ForfeitPlan where
  forfeiterUid : Nat
  forfeiterEloBefore : Int
  players0Uid : Nat
  opponentUid : Nat
  opponentEloBefore : Int
  ranked : Bool
deriving DecidableEq, Repr

def forfeitPlan (s : MatchState) (uid : Nat) : Option ForfeitPlan :=
  if ¬ s.present then none
  else if s.status = MatchStatus.complete then none
  else
    match findPlayer s.players uid with
    | none => none
    | some f =>
      if s.status = MatchStatus.waiting then none
      else if s.players.length < 2 then none
      else
        match s.players.find? (fun p => ¬ p.userId = uid) with
        | none => none
        | some opp =>
            some { forfeiterUid := uid, forfeiterEloBefore := f.eloBefore,
                   players0Uid := (s.players.headD f).userId,
                   opponentUid := opp.userId, opponentEloBefore := opp.eloBefore,
                   ranked := s.ranked }

/-- The forfeit finalize transaction (lines 1299-1312), applied to the
current state from a previously computed plan.  The elo update is computed
with A = forfeiter (score 0) and B = opponent (score 1), but the results
are assigned by comparing against `players[0]`; there is no status re-read
inside this transaction. -/
noncomputable def forfeitFinalizeTxn (s : MatchState) (plan : ForfeitPlan) (now : Int) :
    MatchState × ForfeitResp :=
  let ranked := plan.ranked
  let upd := computeEloUpdate (plan.forfeiterEloBefore : ℝ) (plan.opponentEloBefore : ℝ)
    0 1 none none
  let forfeiterNewElo : Int :=
    if ranked then (if plan.forfeiterUid = plan.players0Uid then upd.newEloA else upd.newEloB)
    else plan.forfeiterEloBefore
  let opponentNewElo : Int :=
    if ranked then (if plan.opponentUid = plan.players0Uid then upd.newEloA else upd.newEloB)
    else plan.opponentEloBefore
  let players1 := updatePlayer s.players plan.forfeiterUid
    (fun p => { p with eloAfter := some forfeiterNewElo, isWinner := some false,
                       runtimeMs := none, submittedAt := some now })
  let players2 := updatePlayer players1 plan.opponentUid
    (fun p => { p with eloAfter := some opponentNewElo, isWinner := some true })
  let users1 :=
    if ranked then
      setUserElo (setUserElo s.users plan.forfeiterUid forfeiterNewElo)
        plan.opponentUid opponentNewElo
    else s.users
  ({ s with players := players2, users := users1, status := MatchStatus.complete },
   ForfeitResp.forfeited plan.opponentUid ranked)

/-- The forfeit endpoint (lines 1282-1318): guards, the `waiting` branch
(leave / delete), and the finalize transaction for `active` matches. -/
noncomputable def forfeitHandler (s : MatchState) (uid : Nat) (now : Int) :
    MatchState × ForfeitResp :=
  if ¬ s.present then (s, ForfeitResp.httpError "Match not found")
  else if s.status = MatchStatus.complete then
    (s, ForfeitResp.httpError "Match already complete")
  else if findPlayer s.players uid = none then
    (s, ForfeitResp.httpError "Not part of this match")
  else if s.status = MatchStatus.waiting then
    let players' := s.players.filter (fun p => ¬ p.userId = uid)
    if players'.length = 0 then
      ({ s with players := players', present := false }, ForfeitResp.leftMatch)
    else ({ s with players := players' }, ForfeitResp.leftMatch)
  else
    match forfeitPlan s uid with
    | some plan => forfeitFinalizeTxn s plan now
    | none => (s, ForfeitResp.httpError "Cannot forfeit")

/-! ## Operation sequences over a match -/

inductive Op where
  | join (uid : Nat) (uelo : Int)
  | submit (uid : Nat) (code language : Option String) (hasProblemSlug : Bool)
      (clientRuntimeMs : Option ℚ) (testCases : List TestCase)
      (outs : List ExecOutcome) (now : Int)
  | forfeit (uid : Nat) (now : Int)

noncomputable def applyOp (s : MatchState) : Op → MatchState
  | Op.join uid uelo => (joinHandler s uid uelo).1
  | Op.submit uid code language hasSlug rt tcs outs now =>
      (submitHandler s uid code language hasSlug rt tcs outs now).1
  | Op.forfeit uid now => (forfeitHandler s uid now).1

noncomputable def runOps (s : MatchState) : List Op → MatchState
  | [] => s
  | op :: ops => runOps (applyOp s op) ops

/-- Position of a status along `waiting → active → complete`. -/
def statusRank : MatchStatus → Nat
  | MatchStatus.waiting => 0
  | MatchStatus.active => 1
  | MatchStatus.complete => 2

/-! ## Shared evaluation lemmas for the rating update -/

theorem expectedScore_self (x : ℝ) : expectedScore x x = 1/2 := by
  unfold expectedScore
  rw [sub_self, zero_div, Real.rpow_zero]
  norm_num

/-- The two expected scores of a pair always sum to 1. -/
theorem expectedScore_add (a b : ℝ) : expectedScore a b + expectedScore b a = 1 := by
  unfold expectedScore
  have hpos : (0 : ℝ) < (10 : ℝ) ^ ((b - a) / 400) := Real.rpow_pos_of_pos (by norm_num) _
  have hneg : (10 : ℝ) ^ ((a - b) / 400) = ((10 : ℝ) ^ ((b - a) / 400))⁻¹ := by
    rw [← Real.rpow_neg (by norm_num : (0:ℝ) ≤ 10)]
    ring_nf
  rw [hneg]
  have h1 : (1 : ℝ) + (10 : ℝ) ^ ((b - a) / 400) ≠ 0 := by positivity
  have h2 : ((10 : ℝ) ^ ((b - a) / 400))⁻¹ ≠ 0 := by positivity
  field_simp
  ring

theorem elo_eval_draw100 : computeEloUpdate 1200 1200 1 0 (some 100) (some 100) =
    { newEloA := 1216, newEloB := 1184, k := 32 } := by
  unfold computeEloUpdate
  rw [expectedScore_self]
  norm_num [clamp, jsRound]

theorem elo_eval_forfeit : computeEloUpdate 1200 1200 0 1 none none =
    { newEloA := 1184, newEloB := 1216, k := 32 } := by
  unfold computeEloUpdate
  rw [expectedScore_self]
  norm_num [jsRound]

theorem elo_eval_3233 : computeEloUpdate 1200 1200 1 0 (some 32) (some 33) =
    { newEloA := 1217, newEloB := 1184, k := 33 } := by
  unfold computeEloUpdate
  rw [expectedScore_self]
  norm_num [clamp, jsRound]

theorem elo_eval_6481 : computeEloUpdate 1200 1200 1 0 (some 64) (some 81) =
    { newEloA := 1221, newEloB := 1180, k := 41 } := by
  unfold computeEloUpdate
  rw [expectedScore_self]
  norm_num [clamp, jsRound]

/-! ## Claim C4 — rating-update formula -/

/-- Modelled from the spec's words for claim C4 (the claim's formula, in
which k is the unrounded product of the base constant 32 and the clamped
runtime ratio): expected score 1/(1+10^((eloB−eloA)/400)), multiplier
runtimeB/runtimeA clamped to [0.75, 1.5] when both runtimes positive else
1, new rating = round(old + k·(score − expected)) per side. -/
noncomputable def computeEloUpdateClaim (eloA eloB scoreA scoreB : ℝ)
    (runtimeA runtimeB : Option ℝ) : ℤ × ℤ :=
  let expectedA := 1 / (1 + (10 : ℝ) ^ ((eloB - eloA) / 400))
  let expectedB := 1 / (1 + (10 : ℝ) ^ ((eloA - eloB) / 400))
  let kMultiplier : ℝ :=
    match runtimeA, runtimeB with
    | some ra, some rb => if 0 < ra ∧ 0 < rb then clamp (rb / ra) 0.75 1.5 else 1
    | _, _ => 1
  let k : ℝ := 32 * kMultiplier
  (jsRound (eloA + k * (scoreA - expectedA)), jsRound (eloB + k * (scoreB - expectedB)))

/-- Claim C4 as stated is false: with equal ratings 1200, scores 1/0 and
runtimes 64 and 81 the code rounds k to 41 and returns 1221 for the winner,
while the claim's unrounded k = 40.5 yields 1220. -/
theorem claim_C4_counterexample :
    (computeEloUpdate 1200 1200 1 0 (some 64) (some 81)).newEloA = 1221 ∧
    (computeEloUpdateClaim 1200 1200 1 0 (some 64) (some 81)).1 = 1220 ∧
    (computeEloUpdate 1200 1200 1 0 (some 64) (some 81)).newEloA ≠
      (computeEloUpdateClaim 1200 1200 1 0 (some 64) (some 81)).1 := by
  refine ⟨by rw [elo_eval_6481], ?_, ?_⟩
  · unfold computeEloUpdateClaim
    rw [show ((1200:ℝ) - 1200) / 400 = 0 by norm_num, Real.rpow_zero]
    norm_num [clamp, jsRound]
  · rw [elo_eval_6481]
    unfold computeEloUpdateClaim
    rw [show ((1200:ℝ) - 1200) / 400 = 0 by norm_num, Real.rpow_zero]
    norm_num [clamp, jsRound]


/-- Claim C4 (amended): the rating update computes expected score for A as
1/(1 + 10^((eloB − eloA)/400)) (symmetric for B), multiplies the base
constant 32 by the runtime ratio runtimeB/runtimeA clamped to [0.75, 1.5]
when both runtimes are positive and rounds that product to the integer k
(k = 32 when a runtime is missing), and returns for each side
independently new rating = round(old + k·(score − expected)). -/
theorem claim_C4 (eloA eloB scoreA scoreB ra rb : ℝ) (hra : 0 < ra) (hrb : 0 < rb) :
    (computeEloUpdate eloA eloB scoreA scoreB (some ra) (some rb)).k =
      jsRound (32 * clamp (rb / ra) 0.75 1.5) ∧
    (computeEloUpdate eloA eloB scoreA scoreB (some ra) (some rb)).newEloA =
      jsRound (eloA + ((computeEloUpdate eloA eloB scoreA scoreB (some ra) (some rb)).k : ℝ) *
        (scoreA - 1 / (1 + (10 : ℝ) ^ ((eloB - eloA) / 400)))) ∧
    (computeEloUpdate eloA eloB scoreA scoreB (some ra) (some rb)).newEloB =
      jsRound (eloB + ((computeEloUpdate eloA eloB scoreA scoreB (some ra) (some rb)).k : ℝ) *
        (scoreB - 1 / (1 + (10 : ℝ) ^ ((eloA - eloB) / 400)))) ∧
    (computeEloUpdate eloA eloB scoreA scoreB none none).k = 32 := by
  have hcond : (0 < ra ∧ 0 < rb) = True := by simp [hra, hrb]
  simp only [computeEloUpdate, expectedScore, hcond, if_true]
  norm_num [jsRound]

/-- Witness for claim C4 at concrete positive runtimes. -/
theorem claim_C4_witness :
    (computeEloUpdate 1200 1100 1 0 (some 64) (some 81)).k =
      jsRound (32 * clamp ((81 : ℝ) / 64) 0.75 1.5) :=
  (claim_C4 1200 1100 1 0 64 81 (by norm_num) (by norm_num)).1

/-! ## Claim C5 — mirror-image rating deltas -/

theorem jsRound_mirror (a b : ℤ) (u v : ℝ) (huv : u + v = 0) :
    (jsRound ((a : ℝ) + u) - a) + (jsRound ((b : ℝ) + v) - b) = 0 ∨
    (jsRound ((a : ℝ) + u) - a) + (jsRound ((b : ℝ) + v) - b) = 1 := by
  have hv : v = -u := by linarith
  subst hv
  unfold jsRound
  have ha : ((a : ℝ) + u + 1/2) = (a : ℝ) + (u + 1/2) := by ring
  have hb : ((b : ℝ) + -u + 1/2) = (b : ℝ) + (-(u + 1/2) + 1) := by ring
  rw [ha, hb, Int.floor_int_add, Int.floor_int_add, Int.floor_add_one, Int.floor_neg]
  have h1 := Int.floor_le_ceil (u + 1/2)
  have h2 := Int.ceil_le_floor_add_one (u + 1/2)
  omega

theorem jsRound_pair_sum (a b : ℤ) (K p q : ℝ) (hpq : p + q = 0) :
    (jsRound ((a : ℝ) + K * p) - a) + (jsRound ((b : ℝ) + K * q) - b) = 0 ∨
    (jsRound ((a : ℝ) + K * p) - a) + (jsRound ((b : ℝ) + K * q) - b) = 1 := by
  apply jsRound_mirror
  linear_combination K * hpq

/-- Claim C5 (amended): for a finalized ranked match the two rating deltas
are mirror images up to the independent rounding of each side — their sum
is 0 or 1 (1 exactly when the common summand lands on a rounding tie), not
always 0 as claimed. -/
theorem claim_C5 (eloA eloB : ℤ) (scoreA scoreB : ℝ) (hs : scoreA + scoreB = 1)
    (rA rB : Option ℝ) :
    ((computeEloUpdate (eloA : ℝ) (eloB : ℝ) scoreA scoreB rA rB).newEloA - eloA) +
      ((computeEloUpdate (eloA : ℝ) (eloB : ℝ) scoreA scoreB rA rB).newEloB - eloB) = 0 ∨
    ((computeEloUpdate (eloA : ℝ) (eloB : ℝ) scoreA scoreB rA rB).newEloA - eloA) +
      ((computeEloUpdate (eloA : ℝ) (eloB : ℝ) scoreA scoreB rA rB).newEloB - eloB) = 1 := by
  have hE := expectedScore_add (eloA : ℝ) (eloB : ℝ)
  simp only [computeEloUpdate]
  exact jsRound_pair_sum eloA eloB _ _ _ (by linarith)

/-- Witness for claim C5's amended statement at a concrete input. -/
theorem claim_C5_witness :
    ((computeEloUpdate ((1200 : ℤ) : ℝ) ((1200 : ℤ) : ℝ) 1 0 (some 32) (some 33)).newEloA - 1200) +
      ((computeEloUpdate ((1200 : ℤ) : ℝ) ((1200 : ℤ) : ℝ) 1 0 (some 32) (some 33)).newEloB - 1200) = 0 ∨
    ((computeEloUpdate ((1200 : ℤ) : ℝ) ((1200 : ℤ) : ℝ) 1 0 (some 32) (some 33)).newEloA - 1200) +
      ((computeEloUpdate ((1200 : ℤ) : ℝ) ((1200 : ℤ) : ℝ) 1 0 (some 32) (some 33)).newEloB - 1200) = 1 :=
  claim_C5 1200 1200 1 0 (by norm_num) (some 32) (some 33)

/-- A ranked active match: user 1 submitted at t=5000 with runtime 32 ms,
user 2 at t=6000 with runtime 33 ms. -/
def rowA32 : PlayerRow :=
  { userId := 1, eloBefore := 1200, eloAfter := none, runtimeMs := some 32,
    submittedAt := some 5000, isWinner := none }

def rowB33 : PlayerRow :=
  { userId := 2, eloBefore := 1200, eloAfter := none, runtimeMs := some 33,
    submittedAt := some 6000, isWinner := none }

def stC5 : MatchState :=
  { present := true, status := MatchStatus.active, ranked := true,
    players := [rowA32, rowB33], users := [(1, 1200), (2, 1200)] }

theorem outcome_eval_AB : decideOutcome
    { userId := 1, eloBefore := 1200, eloAfter := none, runtimeMs := some 32,
      submittedAt := some 5000, isWinner := none }
    { userId := 2, eloBefore := 1200, eloAfter := none, runtimeMs := some 33,
      submittedAt := some 6000, isWinner := none } =
    { scoreA := 1, scoreB := 0, winnerId := some 1 } := by
  unfold decideOutcome
  rw [if_pos]
  · simp [submittedKey]
    exact_mod_cast (by norm_num : (5000 : ℤ) < 6000)

/-- Claim C5 as stated is false: finalizing the ranked match `stC5`
(equal ratings 1200, runtimes 32 and 33 ms) writes elo_after 1217 and 1184,
whose deltas +17 and −16 sum to 1, not 0. -/
theorem claim_C5_counterexample :
    (submitTxn stC5 1).1.players.map (fun p => p.eloAfter) = [some 1217, some 1184] ∧
    ((1217 - 1200) + (1184 - 1200) : ℤ) ≠ 0 := by
  constructor
  · simp [submitTxn, stC5, sortByUid, insertByUid, outcome_eval_AB,
      findPlayer, updatePlayer, setUserElo, elo_eval_3233, rowA32, rowB33]
  · decide

/-! ## Claim C1 — winner by earliest correct submission -/

/-- Claim C1: when a match is finalized with both players' runtimes and
submission timestamps recorded, the finalize transaction completes the
match reporting the winner computed by `decideOutcome`, and that winner is
the strictly earlier submitter (scores 1/0); equal timestamps are a draw
with scores 0.5/0.5 and no winner.  The submission timestamps alone decide
the winner — the runtimes are arbitrary here. -/
theorem claim_C1 (s : MatchState) (uid : Nat) (a b : PlayerRow) (ta tb : ℤ)
    (hst : ¬ s.status = MatchStatus.complete)
    (hps : sortByUid s.players = [a, b])
    (hra : a.runtimeMs ≠ none) (hrb : b.runtimeMs ≠ none)
    (hta : a.submittedAt = some ta) (htb : b.submittedAt = some tb) :
    (ta < tb → decideOutcome a b = { scoreA := 1, scoreB := 0, winnerId := some a.userId }) ∧
    (tb < ta → decideOutcome a b = { scoreA := 0, scoreB := 1, winnerId := some b.userId }) ∧
    (ta = tb → decideOutcome a b = { scoreA := 0.5, scoreB := 0.5, winnerId := none }) ∧
    (∃ k rk iw ed, (submitTxn s uid).2 =
        SubmitResp.completeNew (decideOutcome a b).winnerId k rk iw ed) ∧
    (submitTxn s uid).1.status = MatchStatus.complete := by
  have hkey : submittedKey a = (ta : WithTop ℤ) ∧ submittedKey b = (tb : WithTop ℤ) := by
    constructor <;> simp [submittedKey, hta, htb]
  refine ⟨?_, ?_, ?_, ?_⟩
  · intro h
    unfold decideOutcome
    rw [if_pos]
    rw [hkey.1, hkey.2]
    exact_mod_cast h
  · intro h
    unfold decideOutcome
    rw [if_neg, if_pos]
    · rw [hkey.1, hkey.2]; exact_mod_cast h
    · rw [hkey.1, hkey.2]
      intro hc
      exact absurd (WithTop.coe_lt_coe.mp hc) (by omega)
  · intro h
    unfold decideOutcome
    rw [if_neg, if_neg]
    · rw [hkey.1, hkey.2]
      intro hc
      exact absurd (WithTop.coe_lt_coe.mp hc) (by omega)
    · rw [hkey.1, hkey.2]
      intro hc
      exact absurd (WithTop.coe_lt_coe.mp hc) (by omega)
  · unfold submitTxn
    rw [if_neg hst, hps]
    rw [if_neg (by simp [hra, hrb] : ¬([a, b].length < 2 ∨ [a, b].any fun p => p.runtimeMs = none))]
    exact ⟨⟨_, _, _, _, rfl⟩, rfl⟩

/-- The spec's scenario for C1: player 1 has the faster runtime (50 ms) but
submitted at t=10000; player 2 is slower (200 ms) but submitted at t=5000. -/
def rowSlowLate : PlayerRow :=
  { userId := 1, eloBefore := 1200, eloAfter := none, runtimeMs := some 50,
    submittedAt := some 10000, isWinner := none }

def rowFastEarly : PlayerRow :=
  { userId := 2, eloBefore := 1200, eloAfter := none, runtimeMs := some 200,
    submittedAt := some 5000, isWinner := none }

def stC1 : MatchState :=
  { present := true, status := MatchStatus.active, ranked := true,
    players := [rowSlowLate, rowFastEarly], users := [(1, 1200), (2, 1200)] }

/-- Witness for claim C1: the earlier submitter (user 2) wins despite the
larger measured runtime. -/
theorem claim_C1_witness :
    decideOutcome rowSlowLate rowFastEarly =
      { scoreA := 0, scoreB := 1, winnerId := some 2 } :=
  (claim_C1 stC1 1 rowSlowLate rowFastEarly 10000 5000 (by decide) (by decide)
    (by decide) (by decide) rfl rfl).2.1 (by decide)

/-! ## Claim C6 — forfeit while active -/

def pf1 : PlayerRow :=
  { userId := 1, eloBefore := 1200, eloAfter := none, runtimeMs := none,
    submittedAt := none, isWinner := none }

def pf2 : PlayerRow :=
  { userId := 2, eloBefore := 1200, eloAfter := none, runtimeMs := none,
    submittedAt := none, isWinner := none }

/-- A ranked active match between users 1 and 2, both rated 1200; the rows
are stored in the order [user 1, user 2]. -/
def stC6 : MatchState :=
  { present := true, status := MatchStatus.active, ranked := true,
    players := [pf1, pf2], users := [(1, 1200), (2, 1200)] }

/-- Claim C6: when user 2 forfeits the ranked active match `stC6`, the code
marks the opponent winner and the forfeiter loser (no draw, no timestamp
rule, no test execution), but it applies the ratings crosswise: the
forfeiter receives 1216 and the opponent 1184, although the paired update
computed with the forfeiter at score 0 gives the forfeiter (side A) 1184.
The claim describes the intended behaviour; the code's assignment via
`players[0]` is the slip. -/
theorem claim_C6 :
    getUserElo ((forfeitHandler stC6 2 9000).1).users 2 = some 1216 ∧
    getUserElo ((forfeitHandler stC6 2 9000).1).users 1 = some 1184 ∧
    (computeEloUpdate 1200 1200 0 1 none none).newEloA = 1184 ∧
    (findPlayer (forfeitHandler stC6 2 9000).1.players 2).map (fun p => p.isWinner) =
      some (some false) ∧
    (findPlayer (forfeitHandler stC6 2 9000).1.players 1).map (fun p => p.isWinner) =
      some (some true) := by
  refine ⟨?_, ?_, by rw [elo_eval_forfeit], ?_, ?_⟩ <;>
    simp [forfeitHandler, forfeitPlan, forfeitFinalizeTxn, stC6, pf1, pf2,
      findPlayer, updatePlayer, setUserElo, getUserElo, elo_eval_forfeit]

/-! ## Claim C2 — finalize-once under two concurrent finalize attempts -/

def rowT5 : PlayerRow :=
  { userId := 1, eloBefore := 1200, eloAfter := none, runtimeMs := some 100,
    submittedAt := some 5000, isWinner := none }

def rowT6 : PlayerRow :=
  { userId := 2, eloBefore := 1200, eloAfter := none, runtimeMs := some 100,
    submittedAt := some 6000, isWinner := none }

/-- A ranked active match with both durations recorded: both finalize
attempts (a submit by user 1 and a forfeit by user 2) are enabled. -/
def raceS0 : MatchState :=
  { present := true, status := MatchStatus.active, ranked := true,
    players := [rowT5, rowT6], users := [(1, 1200), (2, 1200)] }

/-- The plan the forfeit endpoint computes on `raceS0` before its
transaction begins. -/
def racePlan : ForfeitPlan :=
  { forfeiterUid := 2, forfeiterEloBefore := 1200, players0Uid := 1,
    opponentUid := 1, opponentEloBefore := 1200, ranked := true }

theorem outcome_eval_T56 : decideOutcome
    { userId := 1, eloBefore := 1200, eloAfter := none, runtimeMs := some 100,
      submittedAt := some 5000, isWinner := none }
    { userId := 2, eloBefore := 1200, eloAfter := none, runtimeMs := some 100,
      submittedAt := some 6000, isWinner := none } =
    { scoreA := 1, scoreB := 0, winnerId := some 1 } := by
  unfold decideOutcome
  rw [if_pos]
  · simp [submittedKey]
    exact_mod_cast (by norm_num : (5000 : ℤ) < 6000)

/-- Claim C2: finalize-once fails when the losing attempt is a forfeit.  In
`raceS0` the forfeit endpoint's pre-transaction reads succeed (the plan is
computed while the match is still active); if user 1's submit finalize
transaction then commits (status `complete`, user 2's elo written as 1184),
the forfeit transaction — which contains no status re-read — still runs and
performs a second rating write, moving user 2 from 1184 to 1216 on an
already-complete match. -/
theorem claim_C2 :
    (submitTxn raceS0 1).1.status = MatchStatus.complete ∧
    getUserElo ((submitTxn raceS0 1).1).users 2 = some 1184 ∧
    ∃ plan, forfeitPlan raceS0 2 = some plan ∧
      ((forfeitFinalizeTxn (submitTxn raceS0 1).1 plan 7000).1).status =
        MatchStatus.complete ∧
      getUserElo ((forfeitFinalizeTxn (submitTxn raceS0 1).1 plan 7000).1).users 2 =
        some 1216 := by
  refine ⟨?_, ?_, ?_⟩
  · simp [submitTxn, raceS0, sortByUid, insertByUid, rowT5, rowT6]
  · simp [submitTxn, raceS0, sortByUid, insertByUid, rowT5, rowT6, outcome_eval_T56,
      findPlayer, updatePlayer, setUserElo, getUserElo, elo_eval_draw100]
  · refine ⟨racePlan, ?_, ?_, ?_⟩
    · simp [forfeitPlan, raceS0, rowT5, rowT6, findPlayer, racePlan]
    · simp [forfeitFinalizeTxn]
    · simp [submitTxn, raceS0, sortByUid, insertByUid, rowT5, rowT6, outcome_eval_T56,
        findPlayer, updatePlayer, setUserElo, getUserElo, elo_eval_draw100,
        forfeitFinalizeTxn, elo_eval_forfeit, racePlan]

/-! ## Claim C3 — the length-heuristic exception of the output matcher -/

/-- Claim C3: `outputMatches` returns true only through canonical equality
or through the length-heuristic exception, which fires only when the actual
output is a bare non-negative integer (digits only) and the expected value
parses as an array whose length equals that integer; in particular "3"
matches "[0,1,2]" and does not match "[0,1,2,4]". -/
theorem claim_C3 :
    (∀ a e, outputMatches a e = true →
      normalizeOutput a = normalizeOutput e ∨
      (isDigitsOnly (jsTrim a) = true ∧
        ∃ xs, jsonParse (jsTrim e) = some (Json.arr xs) ∧ digitsVal (jsTrim a) = xs.length)) ∧
    outputMatches "3" "[0,1,2]" = true ∧
    outputMatches "3" "[0,1,2,4]" = false := by
  refine ⟨?_, by decide, by decide⟩
  intro a e h
  simp only [outputMatches] at h
  split_ifs at h with h1
  · exact Or.inl h1
  · right
    split at h
    next xs heq =>
      split_ifs at h with h2
      exact ⟨h2.1, xs, heq, h2.2⟩
    next => exact absurd h (by simp)

/-- Witness for claim C3's universally quantified part, at the heuristic's
true positive. -/
theorem claim_C3_witness :
    normalizeOutput "3" = normalizeOutput "[0,1,2]" ∨
    (isDigitsOnly (jsTrim "3") = true ∧
      ∃ xs, jsonParse (jsTrim "[0,1,2]") = some (Json.arr xs) ∧
        digitsVal (jsTrim "3") = xs.length) :=
  claim_C3.1 "3" "[0,1,2]" (by decide)

/-! ## Claim C7 — failing submissions are rejected without touching state -/

/-- Claim C7: when a submit request supplies code, language and a problem,
and at least one derived test case fails (the case list is non-empty and
the fail count positive), the endpoint replies with the
"{passed}/{total} test cases passed" rejection and returns the match state
unchanged — no match or match-player row is modified. -/
theorem claim_C7 (s : MatchState) (uid : Nat) (code language : Option String)
    (rt : Option ℚ) (testCases : List TestCase) (outs : List ExecOutcome) (now : Int)
    (hpres : s.present = true) (hst : ¬ s.status = MatchStatus.complete)
    (hmem : ¬ findPlayer s.players uid = none)
    (hcode : isTruthyStr code = true) (hlang : isTruthyStr language = true)
    (hne : testCases ≠ []) (hfail : 0 < countFails testCases outs) :
    submitHandler s uid code language true rt testCases outs now =
      (s, SubmitResp.httpError
        (rejectMsg (testCases.length - countFails testCases outs) testCases.length)) := by
  have hlen : ¬ testCases.length = 0 := by simpa using hne
  have hv1 : (runAllTestsModel testCases outs).total = testCases.length := by
    unfold runAllTestsModel
    rw [if_neg hlen]
  have hv2 : (runAllTestsModel testCases outs).allPassed = false := by
    unfold runAllTestsModel
    rw [if_neg hlen]
    simp
    omega
  have hv3 : (runAllTestsModel testCases outs).failedCount = countFails testCases outs := by
    unfold runAllTestsModel
    rw [if_neg hlen]
  unfold submitHandler
  rw [if_neg (by simp [hpres]), if_neg hst, if_neg hmem,
    if_pos ⟨⟨hcode, hlang, rfl⟩, by rw [hv1]; exact Nat.pos_of_ne_zero hlen, hv2⟩,
    hv1, hv3]

/-- Witness for claim C7: one derived case whose execution printed "2"
against expected "1" is rejected as "0/1 test cases passed" and leaves the
state untouched. -/
theorem claim_C7_witness :
    submitHandler stC6 2 (some "code") (some "javascript") true none
      [{ stdin := "x", expected := "1" }] [ExecOutcome.ok "2" (some 10)] 7777 =
      (stC6, SubmitResp.httpError
        (rejectMsg (([{ stdin := "x", expected := "1" }] : List TestCase).length -
          countFails [{ stdin := "x", expected := "1" }] [ExecOutcome.ok "2" (some 10)])
          ([{ stdin := "x", expected := "1" }] : List TestCase).length)) :=
  claim_C7 stC6 2 (some "code") (some "javascript") none
    [{ stdin := "x", expected := "1" }] [ExecOutcome.ok "2" (some 10)] 7777
    (by decide) (by decide) (by decide) (by decide) (by decide) (by decide) (by decide)

/-! ## Claims C8 and C10 — the test-case deriver's grouping -/

theorem chunkAux_length (numParams fuel : Nat) (lines : List String)
    (hf : lines.length ≤ fuel) :
    (chunkAux numParams fuel lines).length = lines.length / (numParams + 1) := by
  induction fuel generalizing lines with
  | zero =>
      have h0 : lines.length = 0 := by omega
      rw [chunkAux, h0]
      simp
  | succ f ih =>
      by_cases h : numParams + 1 ≤ lines.length
      · rw [chunkAux, if_pos h]
        simp only [List.length_cons]
        rw [ih (lines.drop (numParams + 1)) (by simp; omega)]
        rw [List.length_drop]
        rw [Nat.div_eq_sub_div (Nat.succ_pos _) h]
      · rw [chunkAux, if_neg h]
        rw [Nat.div_eq_of_lt (by omega)]
        rfl

theorem chunkCases_length (lines : List String) (numParams : Nat) :
    (chunkCases lines numParams).length = lines.length / (numParams + 1) :=
  chunkAux_length numParams lines.length lines le_rfl

/-- Claim C8 as stated is false in its general part: with N = 2 and the
four lines a b c d the deriver does not group into blocks of N inputs + 1
expected (which would give the single case {a\nb, c}); the `2N` special
branch returns two no-oracle cases instead. -/
theorem claim_C8_counterexample :
    parseTestCasesFromLines ["a", "b", "c", "d"] (some 2) =
      [{ stdin := "a\nb", expected := "" }, { stdin := "c\nd", expected := "" }] ∧
    chunkCases ["a", "b", "c", "d"] 2 = [{ stdin := "a\nb", expected := "c" }] ∧
    parseTestCasesFromLines ["a", "b", "c", "d"] (some 2) ≠
      chunkCases ["a", "b", "c", "d"] 2 := by
  refine ⟨by decide, by decide, by decide⟩

/-- Claim C8 (amended): the concrete two-parameter scenario derives exactly
one case {stdin "[2,7,11,15]\n9", expected "[0,1]"}; and for a known
parameter count N the deriver groups the non-empty lines into blocks of N
input lines + 1 expected line, in order, *except* in four special
branches: N = 1 with a line count ≥ 3 divisible by 3 (regrouped as N = 2),
a line count of exactly 2N (two no-oracle cases), a line count of exactly
N (one no-oracle case made of all N lines), and a single full block with
N ≥ 3 and ≥ 4 lines (possibly regrouped with a smaller N). -/
theorem claim_C8 (lines : List String) (n : Nat)
    (h1 : ¬ (n = 1 ∧ 3 ≤ lines.length ∧ lines.length % 3 = 0))
    (h2 : lines.length ≠ 2 * n)
    (h3 : lines.length ≠ n)
    (h4 : lines.length / (n + 1) = 1 → n < 3 ∨ lines.length < 4) :
    parseTestCasesFromLines lines (some (n : ℤ)) = chunkCases lines n ∧
    parseTestCases "[2,7,11,15]\n9\n[0,1]" (some 2) =
      [{ stdin := "[2,7,11,15]\n9", expected := "[0,1]" }] := by
  refine ⟨?_, by decide⟩
  by_cases hlen0 : lines.length = 0
  · have hnil : lines = [] := List.length_eq_zero.mp hlen0
    subst hnil
    rfl
  · have hcnp : ¬ ((n : ℤ) = 1 ∧ 3 ≤ lines.length ∧ lines.length % 3 = 0) := by
      intro hcc
      exact h1 ⟨by exact_mod_cast hcc.1, hcc.2⟩
    simp only [parseTestCasesFromLines]
    rw [if_neg hlen0, if_neg (by omega : ¬ (n : ℤ) < 0), if_neg hcnp, Int.toNat_natCast]
    rw [if_neg (by omega : ¬ lines.length = n * 2)]
    by_cases hbig : n + 1 ≤ lines.length
    · have hq : 1 ≤ lines.length / (n + 1) :=
        (Nat.one_le_div_iff (Nat.succ_pos n)).mpr hbig
      rw [if_neg (by rw [chunkCases_length]; omega :
        ¬ ((chunkCases lines n).length = 0 ∧ n ≤ lines.length))]
      rw [if_neg ?hretry]
      case hretry =>
        rintro ⟨hc1, hc2, hc3⟩
        rw [chunkCases_length] at hc1
        rcases h4 hc1 with h | h <;> omega
    · have hlt : lines.length < n := by omega
      have hq : lines.length / (n + 1) = 0 := Nat.div_eq_of_lt (by omega)
      rw [if_neg (by rintro ⟨-, hle⟩; omega :
        ¬ ((chunkCases lines n).length = 0 ∧ n ≤ lines.length))]
      rw [if_neg ?hretry2]
      case hretry2 =>
        rintro ⟨hc1, -, -⟩
        rw [chunkCases_length, hq] at hc1
        omega

/-- Witness for claim C8's amended grouping rule at N = 2 with six lines. -/
theorem claim_C8_witness :
    parseTestCasesFromLines ["a", "b", "c", "d", "e", "f"] (some (2 : Nat)) =
      chunkCases ["a", "b", "c", "d", "e", "f"] 2 ∧
    parseTestCases "[2,7,11,15]\n9\n[0,1]" (some 2) =
      [{ stdin := "[2,7,11,15]\n9", expected := "[0,1]" }] :=
  claim_C8 ["a", "b", "c", "d", "e", "f"] 2 (by decide) (by decide) (by decide) (by decide)

/-- Claim C10: with a declared parameter count of 1 and a non-empty line
count divisible by 3 (and ≥ 3), the deriver silently regroups as if the
parameter count were 2: two input lines plus one expected line per case. -/
theorem claim_C10 (lines : List String) (h1 : 3 ≤ lines.length)
    (h2 : lines.length % 3 = 0) :
    parseTestCasesFromLines lines (some 1) = chunkCases lines 2 := by
  have hlen0 : ¬ lines.length = 0 := by omega
  simp only [parseTestCasesFromLines]
  rw [if_neg hlen0, if_neg (by norm_num : ¬ (1 : ℤ) < 0),
    if_pos (show True ∧ 3 ≤ lines.length ∧ lines.length % 3 = 0 from ⟨trivial, h1, h2⟩),
    if_neg (by omega : ¬ lines.length = 2 * 2),
    if_neg (by rw [chunkCases_length]; omega :
      ¬ ((chunkCases lines 2).length = 0 ∧ 2 ≤ lines.length)),
    if_neg ?hretry]
  case hretry =>
    rintro ⟨-, hh, -⟩
    omega

/-- Witness for claim C10: three lines under a declared count of 1 become
one case with two stdin lines. -/
theorem claim_C10_witness :
    parseTestCasesFromLines ["a", "b", "c"] (some 1) = chunkCases ["a", "b", "c"] 2 :=
  claim_C10 ["a", "b", "c"] (by decide) (by decide)

/-! ## Claim C9 — status monotonicity and finalize-at-most-once -/

theorem submitTxn_complete (s : MatchState) (uid : Nat)
    (h : s.status = MatchStatus.complete) : (submitTxn s uid).1 = s := by
  simp only [submitTxn]
  rw [if_pos h]

theorem submitTxn_status (s : MatchState) (uid : Nat) :
    (submitTxn s uid).1.status = s.status ∨
    (submitTxn s uid).1.status = MatchStatus.complete := by
  by_cases h1 : s.status = MatchStatus.complete
  · rw [submitTxn_complete s uid h1]
    exact Or.inl rfl
  · simp only [submitTxn, if_neg h1]
    by_cases h2 : (sortByUid s.players).length < 2 ∨
        ((sortByUid s.players).any fun p => decide (p.runtimeMs = none)) = true
    · rw [if_pos h2]
      exact Or.inl rfl
    · rw [if_neg h2]
      cases hps : sortByUid s.players with
      | nil =>
          rw [hps] at h2
          simp at h2
      | cons a rest =>
          cases rest with
          | nil =>
              rw [hps] at h2
              simp at h2
          | cons b tail =>
              simp [hps]

theorem submitHandler_status (s : MatchState) (uid : Nat) (code language : Option String)
    (hasSlug : Bool) (rt : Option ℚ) (tcs : List TestCase) (outs : List ExecOutcome)
    (now : Int) :
    (submitHandler s uid code language hasSlug rt tcs outs now).1.status = s.status ∨
    (submitHandler s uid code language hasSlug rt tcs outs now).1.status =
      MatchStatus.complete := by
  simp only [submitHandler]
  split_ifs <;> try exact Or.inl rfl
  all_goals exact submitTxn_status _ uid

theorem submitHandler_complete (s : MatchState) (uid : Nat) (code language : Option String)
    (hasSlug : Bool) (rt : Option ℚ) (tcs : List TestCase) (outs : List ExecOutcome)
    (now : Int) (h : s.status = MatchStatus.complete) :
    (submitHandler s uid code language hasSlug rt tcs outs now).1 = s := by
  simp only [submitHandler]
  split_ifs <;> simp_all

theorem joinHandler_status (s : MatchState) (uid : Nat) (uelo : Int) :
    (joinHandler s uid uelo).1.status = s.status ∨
    (s.status = MatchStatus.waiting ∧
      (joinHandler s uid uelo).1.status = MatchStatus.active) := by
  simp only [joinHandler]
  split_ifs with h1 h2 h3 h4 <;> try exact Or.inl rfl
  exact Or.inr ⟨not_not.mp h2, rfl⟩

theorem joinHandler_complete (s : MatchState) (uid : Nat) (uelo : Int)
    (h : s.status = MatchStatus.complete) : (joinHandler s uid uelo).1 = s := by
  simp only [joinHandler]
  split_ifs <;> simp_all

theorem forfeitHandler_complete (s : MatchState) (uid : Nat) (now : Int)
    (h : s.status = MatchStatus.complete) : (forfeitHandler s uid now).1 = s := by
  simp only [forfeitHandler]
  split_ifs <;> simp_all

theorem forfeitHandler_status (s : MatchState) (uid : Nat) (now : Int) :
    (forfeitHandler s uid now).1.status = s.status ∨
    (forfeitHandler s uid now).1.status = MatchStatus.complete := by
  by_cases h1 : s.status = MatchStatus.complete
  · rw [forfeitHandler_complete s uid now h1]
    exact Or.inl rfl
  · simp only [forfeitHandler, if_neg h1]
    split_ifs <;> try exact Or.inl rfl
    all_goals
      split
      · exact Or.inr rfl
      · exact Or.inl rfl

theorem applyOp_statusRank (s : MatchState) (op : Op) :
    statusRank s.status ≤ statusRank (applyOp s op).status := by
  cases op with
  | join uid uelo =>
      rcases joinHandler_status s uid uelo with h | ⟨hw, ha⟩
      · rw [applyOp, h]
      · rw [applyOp, ha, hw]
        decide
  | submit uid code language hasSlug rt tcs outs now =>
      rcases submitHandler_status s uid code language hasSlug rt tcs outs now with h | h <;>
        rw [applyOp, h]
      cases s.status <;> decide
  | forfeit uid now =>
      rcases forfeitHandler_status s uid now with h | h <;> rw [applyOp, h]
      cases s.status <;> decide

theorem applyOp_complete (s : MatchState) (op : Op)
    (h : s.status = MatchStatus.complete) : applyOp s op = s := by
  cases op with
  | join uid uelo => exact joinHandler_complete s uid uelo h
  | submit uid code language hasSlug rt tcs outs now =>
      exact submitHandler_complete s uid code language hasSlug rt tcs outs now h
  | forfeit uid now => exact forfeitHandler_complete s uid now h

/-- Claim C9: along any sequence of join, submit and forfeit operations a
match's status only advances in the order waiting → active → complete
(`statusRank` never decreases), and once `complete` the match is terminal:
every further operation leaves the state unchanged, so a match transitions
to `complete` at most once. -/
theorem claim_C9 (s : MatchState) (ops : List Op) :
    statusRank s.status ≤ statusRank (runOps s ops).status ∧
    (s.status = MatchStatus.complete → runOps s ops = s) := by
  induction ops generalizing s with
  | nil => exact ⟨le_rfl, fun _ => rfl⟩
  | cons op ops ih =>
      constructor
      · calc statusRank s.status ≤ statusRank (applyOp s op).status :=
              applyOp_statusRank s op
          _ ≤ statusRank (runOps (applyOp s op) ops).status := (ih (applyOp s op)).1
      · intro h
        rw [runOps, applyOp_complete s op h, (ih s).2 h]

/-- A completed match used to witness claim C9's terminality hypothesis. -/
def stDone : MatchState :=
  { present := true, status := MatchStatus.complete, ranked := true,
    players := [pf1, pf2], users := [(1, 1200), (2, 1200)] }

/-- Witness for claim C9 at a complete state and a concrete operation. -/
theorem claim_C9_witness :
    statusRank stDone.status ≤ statusRank (runOps stDone [Op.forfeit 1 5]).status ∧
    runOps stDone [Op.forfeit 1 5] = stDone :=
  ⟨(claim_C9 stDone [Op.forfeit 1 5]).1, (claim_C9 stDone [Op.forfeit 1 5]).2 rfl⟩
